import Mathlib

/-!
Verification of the serialization layer (`src/game/serialization.rs`) of the
`postflop-solver` repository.

The byte stream of the external `bincode` codec is modelled as a list of typed
tokens: each primitive encode appends one token and each primitive decode
consumes one token, failing when the head token is missing or of the wrong
kind.  Machine addresses are modelled as integers, with `0` playing the role
of the null pointer; `offset_from` is subtraction and `offset` is addition.
The thread-local rebase cells (`ACTION_BASE` / `IP_BASE` / `CHANCE_BASE`) are
embedded as an explicit `Bases` value computed once per aggregate call, which
is exactly the value the cells hold while the node codec runs.  A Rust panic
(the `.unwrap()` calls during edit-log replay) is a distinct outcome `DR.panicked`,
different from an error returned to the caller (`DR.err`).
-/

namespace PostflopSolver

/-- Modelled from the spec: the ordered lifecycle stages
`Uninitialized → MemoryAllocated → TreeBuilt → (further solving stages)`.
The `State` enum itself is not part of the given source file; the spec fixes
its order, and the source only compares with `>=`. -/
inductive State where
  | uninitialized
  | memoryAllocated
  | treeBuilt
  | solved
deriving DecidableEq, Repr

def State.toNat : State → Nat
  | .uninitialized => 0
  | .memoryAllocated => 1
  | .treeBuilt => 2
  | .solved => 3

instance : LE State := ⟨fun a b => a.toNat ≤ b.toNat⟩

instance (a b : State) : Decidable (a ≤ b) :=
  inferInstanceAs (Decidable (a.toNat ≤ b.toNat))

/-- Opaque-to-this-layer tree configuration record (encoded/decoded as one unit). -/
structure TreeConfig where
  data : Nat
deriving DecidableEq, Repr

/-- Opaque-to-this-layer card configuration record. -/
structure CardConfig where
  data : Nat
deriving DecidableEq, Repr

/-- One action identifier of a betting line. -/
structure Action where
  data : Nat
deriving DecidableEq, Repr

/-- Opaque-to-this-layer locking-strategy record. -/
structure LockingStrategy where
  data : Nat
deriving DecidableEq, Repr

/-- A storage arena: a runtime base address plus the byte contents.
Only the contents are persisted; the base is the runtime `as_mut_ptr()`. -/
structure Storage where
  base : Int
  data : List Nat
deriving DecidableEq, Repr

/-- Modelled from the spec: node category flags.  `is_terminal`/`is_chance`
are defined outside the given source file; the spec says each node is exactly
one of Terminal / Chance / Action, decided from its scalar fields. -/
def PLAYER_CHANCE_FLAG : Nat := 4

/-- Modelled from the spec: terminal-category flag, see `PLAYER_CHANCE_FLAG`. -/
def PLAYER_TERMINAL_FLAG : Nat := 8

/-- One game-tree node.  Scalar fields mirror the Rust struct; the three
storage references are machine addresses (0 = null). -/
structure PostFlopNode where
  prev_action : Action := ⟨0⟩
  player : Nat := 0
  turn : Nat := 0
  river : Nat := 0
  is_locked : Bool := false
  amount : Int := 0
  children_offset : Nat := 0
  num_children : Nat := 0
  num_elements_ip : Nat := 0
  num_elements : Nat := 0
  scale1 : Int := 0
  scale2 : Int := 0
  scale3 : Int := 0
  storage1 : Int := 0
  storage2 : Int := 0
  storage3 : Int := 0
deriving DecidableEq, Repr

/-- Modelled from the spec: a node is terminal when its terminal flag is set. -/
def PostFlopNode.is_terminal (n : PostFlopNode) : Bool :=
  n.player &&& PLAYER_TERMINAL_FLAG ≠ 0

/-- Modelled from the spec: a node is a chance node when its chance flag is set. -/
def PostFlopNode.is_chance (n : PostFlopNode) : Bool :=
  n.player &&& PLAYER_CHANCE_FLAG ≠ 0

/-- The whole solver instance.  Persisted fields mirror the Rust struct; the
last four booleans stand for the derived runtime structures rebuilt after
decode (modelled from the spec, they are outside the given source file). -/
structure PostFlopGame where
  state : State := .uninitialized
  card_config : CardConfig := ⟨0⟩
  tree_config : TreeConfig := ⟨0⟩
  added_lines : List (List Action) := []
  removed_lines : List (List Action) := []
  action_root : List (List Action) := []
  num_combinations : Int := 0
  is_compression_enabled : Bool := false
  num_storage_actions : Nat := 0
  num_storage_chances : Nat := 0
  misc_memory_usage : Nat := 0
  storage1 : Storage := ⟨0, []⟩
  storage2 : Storage := ⟨0, []⟩
  storage_ip : Storage := ⟨0, []⟩
  storage_chance : Storage := ⟨0, []⟩
  locking_strategy : LockingStrategy := ⟨0⟩
  history : List Nat := []
  is_normalized_weight_cached : Bool := false
  node_arena : List PostFlopNode := []
  hands_init : Bool := false
  cards_init : Bool := false
  interp_init : Bool := false
  weights_valid : Bool := false
deriving DecidableEq, Repr

/-- The version tag literal of the implementation. -/
def VERSION_STR : String := "2023-03-01"

/-- One token of the modelled byte stream. -/
inductive Token where
  | tstr (s : String)
  | tnat (n : Nat)
  | tint (n : Int)
  | tf (bits : Int)
  | tbool (b : Bool)
  | tstate (s : State)
  | tcfg (c : TreeConfig)
  | tcard (c : CardConfig)
  | tlines (ls : List (List Action))
  | tbytes (bs : List Nat)
  | tnats (ns : List Nat)
  | tlock (l : LockingStrategy)
  | tlen (n : Nat)
deriving DecidableEq, Repr

/-- Decode errors returned to the caller (`bincode::error::DecodeError`). -/
inductive DecodeError where
  | otherString (s : String)
  | malformed (expected : String)
deriving DecidableEq, Repr

/-- Outcome of a decode computation: success, an error returned to the
caller, or a Rust panic (from `.unwrap()`), which never returns a value. -/
inductive DR (α : Type) where
  | ok (a : α)
  | err (e : DecodeError)
  | panicked (msg : String)
deriving DecidableEq, Repr

def DR.bind {α β : Type} : DR α → (α → DR β) → DR β
  | .ok a, f => f a
  | .err e, _ => .err e
  | .panicked m, _ => .panicked m

instance : Monad DR where
  pure := DR.ok
  bind := DR.bind

/-- Lift a fallible collaborator call followed by `.unwrap()`: an `Err`
result becomes a panic, not a decode error. -/
def unwrapE {α : Type} : Except String α → DR α
  | .ok a => .ok a
  | .error e => .panicked ("called unwrap on an Err value: " ++ e)

/-! ### Primitive token decoders (the external `bincode` primitive layer) -/

def dString : List Token → DR (String × List Token)
  | Token.tstr s :: ts => .ok (s, ts)
  | _ => .err (.malformed "String")

def dNat : List Token → DR (Nat × List Token)
  | Token.tnat n :: ts => .ok (n, ts)
  | _ => .err (.malformed "uint")

def dInt : List Token → DR (Int × List Token)
  | Token.tint n :: ts => .ok (n, ts)
  | _ => .err (.malformed "int")

def dF : List Token → DR (Int × List Token)
  | Token.tf n :: ts => .ok (n, ts)
  | _ => .err (.malformed "float")

def dBool : List Token → DR (Bool × List Token)
  | Token.tbool b :: ts => .ok (b, ts)
  | _ => .err (.malformed "bool")

def dState : List Token → DR (State × List Token)
  | Token.tstate s :: ts => .ok (s, ts)
  | _ => .err (.malformed "State")

def dCfg : List Token → DR (TreeConfig × List Token)
  | Token.tcfg c :: ts => .ok (c, ts)
  | _ => .err (.malformed "TreeConfig")

def dCard : List Token → DR (CardConfig × List Token)
  | Token.tcard c :: ts => .ok (c, ts)
  | _ => .err (.malformed "CardConfig")

def dLines : List Token → DR (List (List Action) × List Token)
  | Token.tlines ls :: ts => .ok (ls, ts)
  | _ => .err (.malformed "Vec<Vec<Action>>")

def dBytes : List Token → DR (List Nat × List Token)
  | Token.tbytes bs :: ts => .ok (bs, ts)
  | _ => .err (.malformed "Vec<u8>")

def dNats : List Token → DR (List Nat × List Token)
  | Token.tnats ns :: ts => .ok (ns, ts)
  | _ => .err (.malformed "Vec<usize>")

def dLock : List Token → DR (LockingStrategy × List Token)
  | Token.tlock l :: ts => .ok (l, ts)
  | _ => .err (.malformed "LockingStrategy")

def dLen : List Token → DR (Nat × List Token)
  | Token.tlen n :: ts => .ok (n, ts)
  | _ => .err (.malformed "sequence length")

/-! ### The external action-tree builder (modelled from the spec) -/

/-- Modelled from the spec: the external tree builder's state — the tree is
"always a deterministic function of (tree config, edit log)", so it is
modelled as the configuration plus the list of applied custom lines. -/
structure ActionTree where
  config : TreeConfig
  lines : List (List Action)
deriving DecidableEq, Repr

/-- Modelled from the spec: `create(config)` — builds the default tree of a
configuration (fallible in the source, which unwraps the result). -/
def ActionTree.new (c : TreeConfig) : Except String ActionTree :=
  .ok ⟨c, []⟩

/-- Modelled from the spec: `addLine(actionPath)` — fails when the line is
already present. -/
def ActionTree.add_line (t : ActionTree) (l : List Action) : Except String ActionTree :=
  if l ∈ t.lines then .error "add_line failed"
  else .ok ⟨t.config, t.lines ++ [l]⟩

/-- Modelled from the spec: `removeLine(actionPath)` — fails when the line is
not present. -/
def ActionTree.remove_line (t : ActionTree) (l : List Action) : Except String ActionTree :=
  if l ∈ t.lines then .ok ⟨t.config, t.lines.erase l⟩
  else .error "remove_line failed"

/-- Modelled from the spec: `eject() → (config, rootReference)` — returns the
configuration and the root of the built tree (the tree shape is represented
by the line list). -/
def ActionTree.eject (t : ActionTree) : TreeConfig × Unit × Unit × List (List Action) :=
  (t.config, (), (), t.lines)

/-- Replay of the added-line loop of `PostFlopGame::decode` (each call
unwrapped, so a failure is a panic). -/
def replayAdd (t : ActionTree) : List (List Action) → DR ActionTree
  | [] => .ok t
  | l :: ls => DR.bind (unwrapE (t.add_line l)) (fun t' => replayAdd t' ls)

/-- Replay of the removed-line loop of `PostFlopGame::decode`. -/
def replayRemove (t : ActionTree) : List (List Action) → DR ActionTree
  | [] => .ok t
  | l :: ls => DR.bind (unwrapE (t.remove_line l)) (fun t' => replayRemove t' ls)

/-- The whole tree-rebuild sequence of `PostFlopGame::decode`:
`ActionTree::new(cfg).unwrap()`, then the two replay loops. -/
def replayTree (c : TreeConfig) (add rem : List (List Action)) : DR ActionTree := do
  let t0 ← unwrapE (ActionTree.new c)
  let t1 ← replayAdd t0 add
  replayRemove t1 rem

/-- Total variant of the rebuilt tree root, used to express decode results. -/
def replayRoot (c : TreeConfig) (add rem : List (List Action)) : List (List Action) :=
  match replayTree c add rem with
  | .ok t => t.lines
  | _ => []

/-- `Bool` test that the edit log replays consistently. -/
def replayOk (c : TreeConfig) (add rem : List (List Action)) : Bool :=
  match replayTree c add rem with
  | .ok _ => true
  | _ => false

/-! ### External post-decode reconstruction hooks (modelled from the spec) -/

/-- Modelled from the spec: `initHands()` — rebuilds derived hand structures. -/
def PostFlopGame.init_hands (g : PostFlopGame) : PostFlopGame :=
  { g with hands_init := true }

/-- Modelled from the spec: `initCardFields()` — rebuilds derived card structures. -/
def PostFlopGame.init_card_fields (g : PostFlopGame) : PostFlopGame :=
  { g with cards_init := true }

/-- Modelled from the spec: `initInterpreter()` — rebuilds the interpreter. -/
def PostFlopGame.init_interpreter (g : PostFlopGame) : PostFlopGame :=
  { g with interp_init := true }

/-- Modelled from the spec: `applyHistory(actionIndices)` — replays a traversal
history, restoring the cursor recorded in `history`. -/
def PostFlopGame.apply_history (g : PostFlopGame) (h : List Nat) : PostFlopGame :=
  { g with history := h }

/-- Modelled from the spec: `cacheNormalizedWeights()` — recomputes the cached
normalized-weight table and sets the cache flag. -/
def PostFlopGame.cache_normalized_weights (g : PostFlopGame) : PostFlopGame :=
  { g with weights_valid := true, is_normalized_weight_cached := true }

/-! ### The rebase context -/

/-- Contents of the thread-local rebase cells: `ACTION_BASE` is a pair, the
other two are single addresses (0 = null). -/
structure Bases where
  action1 : Int := 0
  action2 : Int := 0
  ip : Int := 0
  chance : Int := 0
deriving DecidableEq, Repr

/-- The cell contents established at the start of `PostFlopGame::encode`:
the live arena bases if memory is allocated (second primary slot is left
null on encode), all null otherwise. -/
def encodeBases (g : PostFlopGame) : Bases :=
  if State.memoryAllocated ≤ g.state then
    { action1 := g.storage1.base, action2 := 0,
      ip := g.storage_ip.base, chance := g.storage_chance.base }
  else
    { action1 := 0, action2 := 0, ip := 0, chance := 0 }

/-- The cell contents established in `PostFlopGame::decode` after the arenas
are materialized: the freshly allocated bases if memory is allocated, all
null otherwise. -/
def decodeBases (g : PostFlopGame) : Bases :=
  if State.memoryAllocated ≤ g.state then
    { action1 := g.storage1.base, action2 := g.storage2.base,
      ip := g.storage_ip.base, chance := g.storage_chance.base }
  else
    { action1 := 0, action2 := 0, ip := 0, chance := 0 }

/-- Fresh allocation addresses handed to the four decoded arenas (a decode
session in a new process sees arbitrary new base addresses). -/
structure Alloc where
  a1 : Int
  a2 : Int
  ip : Int
  ch : Int
deriving DecidableEq, Repr

/-! ### The node codec -/

/-- The thirteen scalar fields written unconditionally by `PostFlopNode::encode`,
in source order. -/
def nodeScalarTokens (n : PostFlopNode) : List Token :=
  [Token.tnat n.prev_action.data, Token.tnat n.player, Token.tnat n.turn,
   Token.tnat n.river, Token.tbool n.is_locked, Token.tint n.amount,
   Token.tnat n.children_offset, Token.tnat n.num_children,
   Token.tnat n.num_elements_ip, Token.tnat n.num_elements,
   Token.tf n.scale1, Token.tf n.scale2, Token.tf n.scale3]

/-- `PostFlopNode::encode`: scalars, then — only when `storage1` is non-null —
the category-dependent pointer offsets relative to the session bases. -/
def PostFlopNode.encodeN (b : Bases) (n : PostFlopNode) : List Token :=
  nodeScalarTokens n ++
    (if n.storage1 ≠ 0 then
      (if n.is_terminal then []
       else if n.is_chance then [Token.tint (n.storage1 - b.chance)]
       else [Token.tint (n.storage1 - b.action1), Token.tint (n.storage3 - b.ip)])
     else [])

/-- The scalar-field part of `PostFlopNode::decode`: thirteen sequential
primitive decodes building a node whose storage references keep their
defaults (null). -/
def dScalars (ts0 : List Token) : DR (PostFlopNode × List Token) := do
  let (pa, ts) ← dNat ts0
  let (pl, ts) ← dNat ts
  let (tu, ts) ← dNat ts
  let (ri, ts) ← dNat ts
  let (lk, ts) ← dBool ts
  let (am, ts) ← dInt ts
  let (co, ts) ← dNat ts
  let (nc, ts) ← dNat ts
  let (ni, ts) ← dNat ts
  let (ne, ts) ← dNat ts
  let (s1, ts) ← dF ts
  let (s2, ts) ← dF ts
  let (s3, ts) ← dF ts
  pure ({ prev_action := ⟨pa⟩, player := pl, turn := tu, river := ri,
          is_locked := lk, amount := am, children_offset := co,
          num_children := nc, num_elements_ip := ni, num_elements := ne,
          scale1 := s1, scale2 := s2, scale3 := s3 }, ts)

/-- `PostFlopNode::decode`: scalars, then pointer reconstruction from the
session bases.  A terminal node, or a null relevant base, consumes no offset
tokens and leaves the storage references null. -/
def PostFlopNode.decodeN (b : Bases) (ts0 : List Token) : DR (PostFlopNode × List Token) := do
  let (node, ts) ← dScalars ts0
  if node.is_terminal then
    pure (node, ts)
  else if node.is_chance then
    if b.chance ≠ 0 then do
      let (off, ts) ← dInt ts
      pure ({ node with storage1 := b.chance + off }, ts)
    else
      pure (node, ts)
  else
    if b.ip ≠ 0 then do
      let (off, ts) ← dInt ts
      let (offIp, ts) ← dInt ts
      pure ({ node with storage1 := b.action1 + off
                        storage2 := b.action2 + off
                        storage3 := b.ip + offIp }, ts)
    else
      pure (node, ts)

/-- Sequential decode of `count` nodes (the element loop of the node-arena
`Vec` decode). -/
def decodeNodes (b : Bases) : Nat → List Token → DR (List PostFlopNode × List Token)
  | 0, ts => .ok ([], ts)
  | n + 1, ts => do
    let (nd, ts) ← PostFlopNode.decodeN b ts
    let (rest, ts) ← decodeNodes b n ts
    pure (nd :: rest, ts)

/-! ### The aggregate codec -/

/-- The fixed preamble written by `PostFlopGame::encode` before the node
arena: version tag through the normalized-weight-cache flag, in source order. -/
def encodePre (g : PostFlopGame) : List Token :=
  [Token.tstr VERSION_STR,
   Token.tcfg g.tree_config,
   Token.tlines g.added_lines,
   Token.tlines g.removed_lines,
   Token.tstate g.state,
   Token.tcard g.card_config,
   Token.tf g.num_combinations,
   Token.tbool g.is_compression_enabled,
   Token.tnat g.num_storage_actions,
   Token.tnat g.num_storage_chances,
   Token.tnat g.misc_memory_usage,
   Token.tbytes g.storage1.data,
   Token.tbytes g.storage2.data,
   Token.tbytes g.storage_ip.data,
   Token.tbytes g.storage_chance.data,
   Token.tlock g.locking_strategy,
   Token.tnats g.history,
   Token.tbool g.is_normalized_weight_cached]

/-- `PostFlopGame::encode`: bases are established once from the instance,
then the fixed field sequence is written, ending with the node arena (length
prefix plus each node through the node codec with the session bases). -/
def PostFlopGame.encodeG (g : PostFlopGame) : List Token :=
  let b := encodeBases g
  encodePre g ++
    Token.tlen g.node_arena.length :: g.node_arena.flatMap (PostFlopNode.encodeN b)

/-- The preamble phase of `PostFlopGame::decode`, in source order: version
gate, tree rebuild by edit replay, scalar fields, arena materialization (at
the session's fresh addresses), then traversal history and cache flag.
Returns the partially built instance plus the two pending locals. -/
def dPre (alloc : Alloc) (ts0 : List Token) :
    DR ((PostFlopGame × List Nat × Bool) × List Token) := do
  let (version, ts) ← dString ts0
  if version ≠ VERSION_STR then
    DR.err (.otherString ("Version mismatch: expected '" ++ VERSION_STR ++
      "', but got '" ++ version ++ "'"))
  else do
    let (tree_config0, ts) ← dCfg ts
    let (added_lines, ts) ← dLines ts
    let (removed_lines, ts) ← dLines ts
    let t ← replayTree tree_config0 added_lines removed_lines
    let (tree_config, _, _, action_root) := t.eject
    let (state, ts) ← dState ts
    let (card_config, ts) ← dCard ts
    let (num_combinations, ts) ← dF ts
    let (isc, ts) ← dBool ts
    let (nsa, ts) ← dNat ts
    let (nsc, ts) ← dNat ts
    let (mmu, ts) ← dNat ts
    let (s1, ts) ← dBytes ts
    let (s2, ts) ← dBytes ts
    let (sip, ts) ← dBytes ts
    let (sch, ts) ← dBytes ts
    let (lock, ts) ← dLock ts
    let game0 : PostFlopGame :=
      { state := state, card_config := card_config, tree_config := tree_config,
        added_lines := added_lines, removed_lines := removed_lines,
        action_root := action_root, num_combinations := num_combinations,
        is_compression_enabled := isc, num_storage_actions := nsa,
        num_storage_chances := nsc, misc_memory_usage := mmu,
        storage1 := ⟨alloc.a1, s1⟩, storage2 := ⟨alloc.a2, s2⟩,
        storage_ip := ⟨alloc.ip, sip⟩, storage_chance := ⟨alloc.ch, sch⟩,
        locking_strategy := lock }
    let (history, ts) ← dNats ts
    let (inwc, ts) ← dBool ts
    pure ((game0, history, inwc), ts)

/-- The reconstruction tail of `PostFlopGame::decode`: install the node arena
and, when the lifecycle is at least `TreeBuilt`, run the external
initialization hooks, replay the history and (conditionally) recompute the
normalized-weight cache. -/
def postAssemble (game0 : PostFlopGame) (history : List Nat) (inwc : Bool)
    (arena : List PostFlopNode) : PostFlopGame :=
  let game1 := { game0 with node_arena := arena }
  if State.treeBuilt ≤ game1.state then
    let ga := (game1.init_hands.init_card_fields.init_interpreter).apply_history history
    if inwc then ga.cache_normalized_weights else ga
  else game1

/-- `PostFlopGame::decode`: the preamble phase, then the rebase context is
established once from the freshly materialized arenas, the node arena is
decoded entirely against that context, and reconstruction runs. -/
def PostFlopGame.decodeG (alloc : Alloc) (ts0 : List Token) :
    DR (PostFlopGame × List Token) := do
  let ((game0, history, inwc), ts) ← dPre alloc ts0
  let b := decodeBases game0
  let (count, ts) ← dLen ts
  let (arena, ts) ← decodeNodes b count ts
  pure (postAssemble game0 history inwc arena, ts)

/-- Content of a storage arena referenced at address `p` for `len` elements:
the slice of the arena data starting at the offset of `p` from the base. -/
def refContent (s : Storage) (p : Int) (len : Nat) : List Nat :=
  ((s.data).drop (p - s.base).toNat).take len

/-- The thirteen persisted scalar fields of a node, as one tuple. -/
def PostFlopNode.scalarFields (n : PostFlopNode) :
    Action × Nat × Nat × Nat × Bool × Int × Nat × Nat × Nat × Nat × Int × Int × Int :=
  (n.prev_action, n.player, n.turn, n.river, n.is_locked, n.amount,
   n.children_offset, n.num_children, n.num_elements_ip, n.num_elements,
   n.scale1, n.scale2, n.scale3)

/-! ### Basic reduction lemmas -/

@[simp] theorem DR.pure_def {α : Type} (a : α) : (pure a : DR α) = DR.ok a := rfl

@[simp] theorem DR.ok_bind {α β : Type} (a : α) (f : α → DR β) :
    (DR.ok a >>= f) = f a := rfl

@[simp] theorem DR.err_bind {α β : Type} (e : DecodeError) (f : α → DR β) :
    ((DR.err e : DR α) >>= f) = DR.err e := rfl

@[simp] theorem DR.panicked_bind {α β : Type} (m : String) (f : α → DR β) :
    ((DR.panicked m : DR α) >>= f) = DR.panicked m := rfl

theorem DR.bind_eq_ok {α β : Type} {m : DR α} {f : α → DR β} {b : β}
    (h : (m >>= f) = .ok b) : ∃ a, m = .ok a ∧ f a = .ok b := by
  cases m with
  | ok a => exact ⟨a, rfl, h⟩
  | err e => exact absurd h (by simp [Bind.bind, DR.bind])
  | panicked m => exact absurd h (by simp [Bind.bind, DR.bind])

@[simp] theorem dString_cons (s : String) (ts : List Token) :
    dString (Token.tstr s :: ts) = .ok (s, ts) := rfl

@[simp] theorem dNat_cons (n : Nat) (ts : List Token) :
    dNat (Token.tnat n :: ts) = .ok (n, ts) := rfl

@[simp] theorem dInt_cons (n : Int) (ts : List Token) :
    dInt (Token.tint n :: ts) = .ok (n, ts) := rfl

@[simp] theorem dF_cons (n : Int) (ts : List Token) :
    dF (Token.tf n :: ts) = .ok (n, ts) := rfl

@[simp] theorem dBool_cons (b : Bool) (ts : List Token) :
    dBool (Token.tbool b :: ts) = .ok (b, ts) := rfl

@[simp] theorem dState_cons (s : State) (ts : List Token) :
    dState (Token.tstate s :: ts) = .ok (s, ts) := rfl

@[simp] theorem dCfg_cons (c : TreeConfig) (ts : List Token) :
    dCfg (Token.tcfg c :: ts) = .ok (c, ts) := rfl

@[simp] theorem dCard_cons (c : CardConfig) (ts : List Token) :
    dCard (Token.tcard c :: ts) = .ok (c, ts) := rfl

@[simp] theorem dLines_cons (ls : List (List Action)) (ts : List Token) :
    dLines (Token.tlines ls :: ts) = .ok (ls, ts) := rfl

@[simp] theorem dBytes_cons (bs : List Nat) (ts : List Token) :
    dBytes (Token.tbytes bs :: ts) = .ok (bs, ts) := rfl

@[simp] theorem dNats_cons (ns : List Nat) (ts : List Token) :
    dNats (Token.tnats ns :: ts) = .ok (ns, ts) := rfl

@[simp] theorem dLock_cons (l : LockingStrategy) (ts : List Token) :
    dLock (Token.tlock l :: ts) = .ok (l, ts) := rfl

@[simp] theorem dLen_cons (n : Nat) (ts : List Token) :
    dLen (Token.tlen n :: ts) = .ok (n, ts) := rfl

/-- A node with its storage references reset to null (the result of the
scalar-decode phase). -/
def stripStorage (n : PostFlopNode) : PostFlopNode :=
  { n with storage1 := 0, storage2 := 0, storage3 := 0 }

@[simp] theorem stripStorage_is_terminal (n : PostFlopNode) :
    (stripStorage n).is_terminal = n.is_terminal := rfl

@[simp] theorem stripStorage_is_chance (n : PostFlopNode) :
    (stripStorage n).is_chance = n.is_chance := rfl

theorem dScalars_scalarTokens (n : PostFlopNode) (ts : List Token) :
    dScalars (nodeScalarTokens n ++ ts) = .ok (stripStorage n, ts) := by
  simp [dScalars, nodeScalarTokens, stripStorage]

/-- The node produced by decoding the encoding of `n`, with encode-session
bases `be` and decode-session bases `bd`, assuming the encode and decode
guards agree (see `decodeN_encodeN`). -/
def rtNode (be bd : Bases) (n : PostFlopNode) : PostFlopNode :=
  if n.is_terminal then stripStorage n
  else if n.is_chance then
    (if n.storage1 ≠ 0 then
      { stripStorage n with storage1 := bd.chance + (n.storage1 - be.chance) }
     else stripStorage n)
  else
    (if n.storage1 ≠ 0 then
      { stripStorage n with storage1 := bd.action1 + (n.storage1 - be.action1)
                            storage2 := bd.action2 + (n.storage1 - be.action1)
                            storage3 := bd.ip + (n.storage3 - be.ip) }
     else stripStorage n)

/-- Guard consistency for one node: when the node is not terminal, it owns
storage exactly when the base relevant to its category is live on the decode
side.  (This is what makes the write-offsets and read-offsets decisions
agree.) -/
def guardOk (bd : Bases) (n : PostFlopNode) : Prop :=
  n.is_terminal = false →
    (n.storage1 ≠ 0 ↔ (if n.is_chance then bd.chance else bd.ip) ≠ 0)

instance (bd : Bases) (n : PostFlopNode) : Decidable (guardOk bd n) := by
  unfold guardOk; infer_instance

/-- Round trip of a single node through the node codec. -/
theorem decodeN_encodeN (be bd : Bases) (n : PostFlopNode) (rest : List Token)
    (hg : guardOk bd n) :
    PostFlopNode.decodeN bd (PostFlopNode.encodeN be n ++ rest) =
      .ok (rtNode be bd n, rest) := by
  unfold PostFlopNode.encodeN PostFlopNode.decodeN rtNode
  by_cases ht : n.is_terminal
  · by_cases hs : n.storage1 = 0 <;>
      simp [ht, hs, dScalars_scalarTokens]
  · have hg' := hg (by simpa using ht)
    by_cases hch : n.is_chance
    · by_cases hs : n.storage1 = 0
      · have hb : bd.chance = 0 := by
          by_contra hb
          exact (hg'.mpr (by simpa [hch] using hb)) hs
        simp [ht, hch, hs, hb, dScalars_scalarTokens]
      · have hb : bd.chance ≠ 0 := by
          have := hg'.mp hs
          simpa [hch] using this
        simp [ht, hch, hs, hb, dScalars_scalarTokens]
    · by_cases hs : n.storage1 = 0
      · have hb : bd.ip = 0 := by
          by_contra hb
          exact (hg'.mpr (by simpa [hch] using hb)) hs
        simp [ht, hch, hs, hb, dScalars_scalarTokens]
      · have hb : bd.ip ≠ 0 := by
          have := hg'.mp hs
          simpa [hch] using this
        simp [ht, hch, hs, hb, dScalars_scalarTokens]

/-- Round trip of the node-arena element loop. -/
theorem decodeNodes_encode (be bd : Bases) (arena : List PostFlopNode)
    (rest : List Token) (hg : ∀ n ∈ arena, guardOk bd n) :
    decodeNodes bd arena.length (arena.flatMap (PostFlopNode.encodeN be) ++ rest) =
      .ok (arena.map (rtNode be bd), rest) := by
  induction arena with
  | nil => simp [decodeNodes]
  | cons n ns ih =>
    have hn : guardOk bd n := hg n (List.mem_cons_self ..)
    have hns : ∀ m ∈ ns, guardOk bd m := fun m hm => hg m (List.mem_cons_of_mem _ hm)
    simp only [List.flatMap_cons, List.length_cons, List.append_assoc, decodeNodes]
    rw [decodeN_encodeN be bd n _ hn]
    simp [ih hns]

theorem add_line_config {t : ActionTree} {l : List Action} {t' : ActionTree}
    (h : t.add_line l = .ok t') : t'.config = t.config := by
  unfold ActionTree.add_line at h
  split at h
  · exact absurd h (by simp)
  · cases h; rfl

theorem remove_line_config {t : ActionTree} {l : List Action} {t' : ActionTree}
    (h : t.remove_line l = .ok t') : t'.config = t.config := by
  unfold ActionTree.remove_line at h
  split at h
  · cases h; rfl
  · exact absurd h (by simp)

theorem replayAdd_config {ls : List (List Action)} :
    ∀ {t t' : ActionTree}, replayAdd t ls = .ok t' → t'.config = t.config := by
  induction ls with
  | nil =>
    intro t t' h
    simp only [replayAdd] at h
    cases h
    rfl
  | cons l ls ih =>
    intro t t' h
    unfold replayAdd at h
    cases hu : t.add_line l with
    | error e => rw [hu] at h; simp [unwrapE, DR.bind] at h
    | ok t1 =>
      rw [hu] at h
      simp only [unwrapE, DR.bind] at h
      rw [ih h, add_line_config hu]

theorem replayRemove_config {ls : List (List Action)} :
    ∀ {t t' : ActionTree}, replayRemove t ls = .ok t' → t'.config = t.config := by
  induction ls with
  | nil =>
    intro t t' h
    simp only [replayRemove] at h
    cases h
    rfl
  | cons l ls ih =>
    intro t t' h
    unfold replayRemove at h
    cases hu : t.remove_line l with
    | error e => rw [hu] at h; simp [unwrapE, DR.bind] at h
    | ok t1 =>
      rw [hu] at h
      simp only [unwrapE, DR.bind] at h
      rw [ih h, remove_line_config hu]

theorem replayTree_config {c : TreeConfig} {add rem : List (List Action)}
    {t : ActionTree} (h : replayTree c add rem = .ok t) : t.config = c := by
  unfold replayTree at h
  simp only [ActionTree.new, unwrapE, DR.ok_bind] at h
  obtain ⟨t1, h1, h2⟩ := DR.bind_eq_ok h
  rw [replayRemove_config h2, replayAdd_config h1]

theorem replayRoot_eq {c : TreeConfig} {add rem : List (List Action)}
    {t : ActionTree} (h : replayTree c add rem = .ok t) :
    replayRoot c add rem = t.lines := by
  unfold replayRoot
  rw [h]

theorem replayOk_exists {c : TreeConfig} {add rem : List (List Action)}
    (h : replayOk c add rem = true) : ∃ t, replayTree c add rem = .ok t := by
  unfold replayOk at h
  revert h
  cases hr : replayTree c add rem <;> intro h <;> simp_all

/-- The decode-session rebase context as a function of the pre-existing
instance and the fresh allocation addresses. -/
def rtBases (g : PostFlopGame) (alloc : Alloc) : Bases :=
  if State.memoryAllocated ≤ g.state then
    { action1 := alloc.a1, action2 := alloc.a2, ip := alloc.ip, chance := alloc.ch }
  else
    { action1 := 0, action2 := 0, ip := 0, chance := 0 }

/-- The instance produced by decoding the encoding of `g` with fresh arena
addresses `alloc` (see `decodeG_encodeG`). -/
def rtGame (g : PostFlopGame) (alloc : Alloc) : PostFlopGame :=
  let g1 : PostFlopGame :=
    { state := g.state
      card_config := g.card_config
      tree_config := g.tree_config
      added_lines := g.added_lines
      removed_lines := g.removed_lines
      action_root := replayRoot g.tree_config g.added_lines g.removed_lines
      num_combinations := g.num_combinations
      is_compression_enabled := g.is_compression_enabled
      num_storage_actions := g.num_storage_actions
      num_storage_chances := g.num_storage_chances
      misc_memory_usage := g.misc_memory_usage
      storage1 := ⟨alloc.a1, g.storage1.data⟩
      storage2 := ⟨alloc.a2, g.storage2.data⟩
      storage_ip := ⟨alloc.ip, g.storage_ip.data⟩
      storage_chance := ⟨alloc.ch, g.storage_chance.data⟩
      locking_strategy := g.locking_strategy
      history := []
      is_normalized_weight_cached := false
      node_arena := g.node_arena.map (rtNode (encodeBases g) (rtBases g alloc)) }
  if State.treeBuilt ≤ g.state then
    let ga := (g1.init_hands.init_card_fields.init_interpreter).apply_history g.history
    if g.is_normalized_weight_cached then ga.cache_normalized_weights else ga
  else g1

/-- Master round-trip characterization: decoding the encoding of `g` with
fresh arena addresses succeeds, consumes the whole stream, and yields exactly
`rtGame g alloc` — provided the edit log replays and the encode/decode
offset guards agree on every node. -/
theorem decodeG_encodeG (g : PostFlopGame) (alloc : Alloc)
    (hreplay : replayOk g.tree_config g.added_lines g.removed_lines = true)
    (hg : ∀ n ∈ g.node_arena, guardOk (rtBases g alloc) n) :
    PostFlopGame.decodeG alloc (PostFlopGame.encodeG g) = .ok (rtGame g alloc, []) := by
  obtain ⟨t, ht⟩ := replayOk_exists hreplay
  have hcfg : t.config = g.tree_config := replayTree_config ht
  have hnodes := decodeNodes_encode (encodeBases g) (rtBases g alloc) g.node_arena [] hg
  rw [List.append_nil] at hnodes
  unfold PostFlopGame.encodeG PostFlopGame.decodeG dPre postAssemble encodePre
  simp only [List.cons_append, List.nil_append, dString_cons, DR.ok_bind]
  rw [if_neg (by simp)]
  simp only [dCfg_cons, dLines_cons, DR.ok_bind]
  rw [ht]
  simp only [DR.ok_bind, ActionTree.eject, dState_cons, dCard_cons, dF_cons,
    dBool_cons, dNat_cons, dBytes_cons, dLock_cons, dNats_cons, dLen_cons]
  simp only [DR.pure_def, DR.ok_bind, decodeBases, rtBases] at hnodes ⊢
  simp only [dLen_cons, DR.ok_bind]
  rw [hnodes]
  simp [rtGame, rtBases, replayRoot_eq ht, hcfg, PostFlopGame.init_hands,
    PostFlopGame.init_card_fields, PostFlopGame.init_interpreter,
    PostFlopGame.apply_history, PostFlopGame.cache_normalized_weights]

/-! ### Projections of the round-trip result -/

theorem rtGame_fields (g : PostFlopGame) (alloc : Alloc) :
    (rtGame g alloc).state = g.state ∧
    (rtGame g alloc).tree_config = g.tree_config ∧
    (rtGame g alloc).added_lines = g.added_lines ∧
    (rtGame g alloc).removed_lines = g.removed_lines ∧
    (rtGame g alloc).card_config = g.card_config ∧
    (rtGame g alloc).storage1 = ⟨alloc.a1, g.storage1.data⟩ ∧
    (rtGame g alloc).storage2 = ⟨alloc.a2, g.storage2.data⟩ ∧
    (rtGame g alloc).storage_ip = ⟨alloc.ip, g.storage_ip.data⟩ ∧
    (rtGame g alloc).storage_chance = ⟨alloc.ch, g.storage_chance.data⟩ ∧
    (rtGame g alloc).node_arena =
      g.node_arena.map (rtNode (encodeBases g) (rtBases g alloc)) := by
  unfold rtGame PostFlopGame.init_hands PostFlopGame.init_card_fields
    PostFlopGame.init_interpreter PostFlopGame.apply_history
    PostFlopGame.cache_normalized_weights
  split
  · split <;> exact ⟨rfl, rfl, rfl, rfl, rfl, rfl, rfl, rfl, rfl, rfl⟩
  · exact ⟨rfl, rfl, rfl, rfl, rfl, rfl, rfl, rfl, rfl, rfl⟩

theorem rtGame_reconstruction (g : PostFlopGame) (alloc : Alloc) :
    (rtGame g alloc).hands_init = (if State.treeBuilt ≤ g.state then true else false) ∧
    (rtGame g alloc).cards_init = (if State.treeBuilt ≤ g.state then true else false) ∧
    (rtGame g alloc).interp_init = (if State.treeBuilt ≤ g.state then true else false) ∧
    (rtGame g alloc).history = (if State.treeBuilt ≤ g.state then g.history else []) ∧
    (rtGame g alloc).weights_valid =
      (if State.treeBuilt ≤ g.state then g.is_normalized_weight_cached else false) := by
  unfold rtGame PostFlopGame.init_hands PostFlopGame.init_card_fields
    PostFlopGame.init_interpreter PostFlopGame.apply_history
    PostFlopGame.cache_normalized_weights
  split
  · split
    · next hw => simp_all
    · next hw => simp_all
  · simp_all

theorem rtNode_scalarFields (be bd : Bases) (n : PostFlopNode) :
    (rtNode be bd n).scalarFields = n.scalarFields := by
  unfold rtNode stripStorage PostFlopNode.scalarFields
  split
  · rfl
  · split <;> split <;> rfl

theorem rtNode_null {n : PostFlopNode} (be bd : Bases) (hs : n.storage1 = 0) :
    rtNode be bd n = stripStorage n := by
  unfold rtNode
  split
  · rfl
  · split <;> simp [hs]

theorem rtNode_chance {n : PostFlopNode} (be bd : Bases)
    (ht : n.is_terminal = false) (hc : n.is_chance = true) (hs : n.storage1 ≠ 0) :
    rtNode be bd n =
      { stripStorage n with storage1 := bd.chance + (n.storage1 - be.chance) } := by
  simp [rtNode, ht, hc, hs]

theorem rtNode_action {n : PostFlopNode} (be bd : Bases)
    (ht : n.is_terminal = false) (hc : n.is_chance = false) (hs : n.storage1 ≠ 0) :
    rtNode be bd n =
      { stripStorage n with storage1 := bd.action1 + (n.storage1 - be.action1)
                            storage2 := bd.action2 + (n.storage1 - be.action1)
                            storage3 := bd.ip + (n.storage3 - be.ip) } := by
  simp [rtNode, ht, hc, hs]

/-- Rebasing preserves referenced content: the slice addressed through a new
base at the carried-over offset equals the slice addressed through the old
base at the original pointer. -/
theorem refContent_rebase (data : List Nat) (b b' p : Int) (len : Nat) :
    refContent ⟨b', data⟩ (b' + (p - b)) len = refContent ⟨b, data⟩ p len := by
  simp [refContent, add_sub_cancel_left]

/-! ### Claim theorems -/

/-- C2: for every input stream whose leading version tag differs textually
from the implementation's current tag, decode fails with the version-mismatch
error before consuming any other field (the result is the same for every
continuation of the stream), and returns no solver instance. -/
theorem c2_version_gate (alloc : Alloc) (v : String) (rest : List Token)
    (hv : v ≠ VERSION_STR) :
    PostFlopGame.decodeG alloc (Token.tstr v :: rest) =
      .err (.otherString ("Version mismatch: expected '" ++ VERSION_STR ++
        "', but got '" ++ v ++ "'")) := by
  unfold PostFlopGame.decodeG dPre
  simp [hv]

/-- Witness for `c2_version_gate` at a concrete altered tag. -/
theorem c2_witness :
    ("2023-03-02" : String) ≠ VERSION_STR ∧
    PostFlopGame.decodeG ⟨1, 2, 3, 4⟩ [Token.tstr "2023-03-02"] =
      .err (.otherString ("Version mismatch: expected '" ++ VERSION_STR ++
        "', but got '" ++ "2023-03-02" ++ "'")) :=
  ⟨by decide, c2_version_gate ⟨1, 2, 3, 4⟩ "2023-03-02" [] (by decide)⟩

/-- C3: for every Action node, the node codec encodes exactly one
primary-arena offset (primary-A address minus primary-A base) plus the
in-position offset; the encoding never depends on the primary-B address; and
after a round trip the decoded node's primary-B reference is primary-B base
plus that same offset, so the two primary offsets agree. -/
theorem c3_mirrored_offset (be bd : Bases) (n : PostFlopNode) (rest : List Token)
    (ht : n.is_terminal = false) (hc : n.is_chance = false) (hs : n.storage1 ≠ 0)
    (hb : bd.ip ≠ 0) :
    PostFlopNode.encodeN be n =
      nodeScalarTokens n ++
        [Token.tint (n.storage1 - be.action1), Token.tint (n.storage3 - be.ip)] ∧
    (∀ (m : PostFlopNode) (v : Int),
      PostFlopNode.encodeN be { m with storage2 := v } = PostFlopNode.encodeN be m) ∧
    ∃ n', PostFlopNode.decodeN bd (PostFlopNode.encodeN be n ++ rest) = .ok (n', rest) ∧
      n'.storage1 = bd.action1 + (n.storage1 - be.action1) ∧
      n'.storage2 = bd.action2 + (n.storage1 - be.action1) ∧
      n'.storage1 - bd.action1 = n'.storage2 - bd.action2 := by
  refine ⟨by simp [PostFlopNode.encodeN, ht, hc, hs], fun m v => rfl, ?_⟩
  have hg : guardOk bd n := by
    intro _
    rw [hc]
    exact ⟨fun _ => by simpa using hb, fun _ => hs⟩
  refine ⟨rtNode be bd n, decodeN_encodeN be bd n rest hg, ?_, ?_, ?_⟩ <;>
    (rw [rtNode_action be bd ht hc hs]; try simp)

/-- Witness for `c3_mirrored_offset` at a concrete Action node. -/
theorem c3_witness :
    (({ player := 1, storage1 := 105, storage3 := 302 } : PostFlopNode).is_terminal = false ∧
     ({ player := 1, storage1 := 105, storage3 := 302 } : PostFlopNode).is_chance = false ∧
     ({ player := 1, storage1 := 105, storage3 := 302 } : PostFlopNode).storage1 ≠ 0 ∧
     (⟨1000, 2000, 3000, 4000⟩ : Bases).ip ≠ 0) ∧
    ∃ n', PostFlopNode.decodeN ⟨1000, 2000, 3000, 4000⟩
        (PostFlopNode.encodeN ⟨100, 0, 300, 400⟩
          { player := 1, storage1 := 105, storage3 := 302 } ++ []) = .ok (n', []) ∧
      n'.storage1 = (1000 : Int) + (105 - 100) ∧
      n'.storage2 = (2000 : Int) + (105 - 100) ∧
      n'.storage1 - 1000 = n'.storage2 - 2000 :=
  ⟨⟨by decide, by decide, by decide, by decide⟩,
   (c3_mirrored_offset ⟨100, 0, 300, 400⟩ ⟨1000, 2000, 3000, 4000⟩
      { player := 1, storage1 := 105, storage3 := 302 } []
      (by decide) (by decide) (by decide) (by decide)).2.2⟩

/-- C10: node decode applies persisted offsets without any bounds check: for
every non-terminal node record whose relevant base is non-null and every
offset value (no constraint relating it to any arena length — the rebase
context holds no lengths at all), decode succeeds and the storage references
are exactly base plus offset. -/
theorem c10_unchecked_offsets (b : Bases) (n : PostFlopNode) (off offIp : Int)
    (rest : List Token) :
    (n.is_terminal = false → n.is_chance = true → b.chance ≠ 0 →
      PostFlopNode.decodeN b (nodeScalarTokens n ++ Token.tint off :: rest) =
        .ok ({ stripStorage n with storage1 := b.chance + off }, rest)) ∧
    (n.is_terminal = false → n.is_chance = false → b.ip ≠ 0 →
      PostFlopNode.decodeN b
          (nodeScalarTokens n ++ Token.tint off :: Token.tint offIp :: rest) =
        .ok ({ stripStorage n with storage1 := b.action1 + off
                                   storage2 := b.action2 + off
                                   storage3 := b.ip + offIp }, rest)) := by
  constructor <;> intro ht hc hb <;>
    simp [PostFlopNode.decodeN, dScalars_scalarTokens, ht, hc, hb]

/-- Witness for `c10_unchecked_offsets`: a chance node whose decoded offset
(1000000) lies far outside the two-element chance arena still decodes
successfully to base plus offset. -/
theorem c10_witness :
    (({ player := 4 } : PostFlopNode).is_terminal = false ∧
     ({ player := 4 } : PostFlopNode).is_chance = true ∧
     ((⟨0, 0, 0, 7⟩ : Bases).chance ≠ 0)) ∧
    PostFlopNode.decodeN ⟨0, 0, 0, 7⟩
        (nodeScalarTokens { player := 4 } ++ Token.tint 1000000 :: []) =
      .ok ({ stripStorage ({ player := 4 } : PostFlopNode) with
              storage1 := (7 : Int) + 1000000 }, []) :=
  ⟨⟨by decide, by decide, by decide⟩,
   (c10_unchecked_offsets ⟨0, 0, 0, 7⟩ { player := 4 } 1000000 0 []).1
     (by decide) (by decide) (by decide)⟩

/-- C4: for an instance below `MemoryAllocated` (whose nodes, per the
reachable-state invariant, own no storage), all rebase bases are the null
marker on both sessions, node encoding emits only scalar tokens (no offset
tokens written), decoding the whole stream consumes it exactly, and the
round-tripped instance has every node's storage references null. -/
theorem c4_null_base_roundtrip (g : PostFlopGame) (alloc : Alloc)
    (hstate : ¬ State.memoryAllocated ≤ g.state)
    (hnull : ∀ n ∈ g.node_arena, n.storage1 = 0)
    (hreplay : replayOk g.tree_config g.added_lines g.removed_lines = true) :
    encodeBases g = { action1 := 0, action2 := 0, ip := 0, chance := 0 } ∧
    rtBases g alloc = { action1 := 0, action2 := 0, ip := 0, chance := 0 } ∧
    g.node_arena.flatMap (PostFlopNode.encodeN (encodeBases g)) =
      g.node_arena.flatMap nodeScalarTokens ∧
    ∃ g', PostFlopGame.decodeG alloc (PostFlopGame.encodeG g) = .ok (g', []) ∧
      ∀ n' ∈ g'.node_arena, n'.storage1 = 0 ∧ n'.storage2 = 0 ∧ n'.storage3 = 0 := by
  have he : encodeBases g = { action1 := 0, action2 := 0, ip := 0, chance := 0 } := by
    simp [encodeBases, hstate]
  have hb : rtBases g alloc = { action1 := 0, action2 := 0, ip := 0, chance := 0 } := by
    simp [rtBases, hstate]
  have hg : ∀ n ∈ g.node_arena, guardOk (rtBases g alloc) n := by
    intro n hn _
    rw [hb]
    simp [hnull n hn]
  refine ⟨he, hb, List.flatMap_congr ?_, rtGame g alloc,
    decodeG_encodeG g alloc hreplay hg, ?_⟩
  · intro n hn
    simp [PostFlopNode.encodeN, hnull n hn]
  · intro n' hn'
    have harena := (rtGame_fields g alloc).2.2.2.2.2.2.2.2.2
    rw [harena] at hn'
    obtain ⟨n, hn, rfl⟩ := List.mem_map.mp hn'
    rw [rtNode_null _ _ (hnull n hn)]
    exact ⟨rfl, rfl, rfl⟩

/-- Witness for `c4_null_base_roundtrip` at a concrete uninitialized game. -/
theorem c4_witness :
    (¬ State.memoryAllocated ≤ ({ node_arena := [{ player := 1 }] } : PostFlopGame).state ∧
     (∀ n ∈ ({ node_arena := [{ player := 1 }] } : PostFlopGame).node_arena, n.storage1 = 0) ∧
     replayOk ({ node_arena := [{ player := 1 }] } : PostFlopGame).tree_config
       ({ node_arena := [{ player := 1 }] } : PostFlopGame).added_lines
       ({ node_arena := [{ player := 1 }] } : PostFlopGame).removed_lines = true) ∧
    (encodeBases { node_arena := [{ player := 1 }] } =
      { action1 := 0, action2 := 0, ip := 0, chance := 0 } ∧
     rtBases { node_arena := [{ player := 1 }] } ⟨1, 2, 3, 4⟩ =
      { action1 := 0, action2 := 0, ip := 0, chance := 0 } ∧
     ({ node_arena := [{ player := 1 }] } : PostFlopGame).node_arena.flatMap
        (PostFlopNode.encodeN (encodeBases { node_arena := [{ player := 1 }] })) =
       ({ node_arena := [{ player := 1 }] } : PostFlopGame).node_arena.flatMap
         nodeScalarTokens ∧
     ∃ g', PostFlopGame.decodeG ⟨1, 2, 3, 4⟩
         (PostFlopGame.encodeG { node_arena := [{ player := 1 }] }) = .ok (g', []) ∧
       ∀ n' ∈ g'.node_arena, n'.storage1 = 0 ∧ n'.storage2 = 0 ∧ n'.storage3 = 0) :=
  ⟨⟨by decide, by decide, by decide⟩,
   c4_null_base_roundtrip { node_arena := [{ player := 1 }] } ⟨1, 2, 3, 4⟩
     (by decide) (by decide) (by decide)⟩

/-- C7: after a round trip, the derived structures are initialized if and
only if the decoded lifecycle state is at least `TreeBuilt`; in that case the
persisted traversal history is replayed to restore the exact cursor; and the
normalized-weight cache is recomputed if and only if the lifecycle gate holds
and the persisted cache flag was set. -/
theorem c7_lifecycle_reconstruction (g : PostFlopGame) (alloc : Alloc)
    (hreplay : replayOk g.tree_config g.added_lines g.removed_lines = true)
    (hguard : ∀ n ∈ g.node_arena, guardOk (rtBases g alloc) n) :
    ∃ g', PostFlopGame.decodeG alloc (PostFlopGame.encodeG g) = .ok (g', []) ∧
      g'.state = g.state ∧
      ((g'.hands_init = true ∧ g'.cards_init = true ∧ g'.interp_init = true) ↔
        State.treeBuilt ≤ g'.state) ∧
      (State.treeBuilt ≤ g'.state → g'.history = g.history) ∧
      (g'.weights_valid = true ↔
        (State.treeBuilt ≤ g'.state ∧ g.is_normalized_weight_cached = true)) := by
  refine ⟨rtGame g alloc, decodeG_encodeG g alloc hreplay hguard, ?_⟩
  have hstate := (rtGame_fields g alloc).1
  obtain ⟨h1, h2, h3, h4, h5⟩ := rtGame_reconstruction g alloc
  rw [hstate, h1, h2, h3, h4, h5]
  by_cases htb : State.treeBuilt ≤ g.state <;> simp [htb]

/-- Witness for `c7_lifecycle_reconstruction` at a concrete `TreeBuilt` game. -/
theorem c7_witness :
    (replayOk ({ state := .treeBuilt, history := [2, 5] } : PostFlopGame).tree_config
       ({ state := .treeBuilt, history := [2, 5] } : PostFlopGame).added_lines
       ({ state := .treeBuilt, history := [2, 5] } : PostFlopGame).removed_lines = true ∧
     ∀ n ∈ ({ state := .treeBuilt, history := [2, 5] } : PostFlopGame).node_arena,
       guardOk (rtBases { state := .treeBuilt, history := [2, 5] } ⟨1, 2, 3, 4⟩) n) ∧
    ∃ g', PostFlopGame.decodeG ⟨1, 2, 3, 4⟩
        (PostFlopGame.encodeG { state := .treeBuilt, history := [2, 5] }) = .ok (g', []) ∧
      g'.state = ({ state := .treeBuilt, history := [2, 5] } : PostFlopGame).state ∧
      ((g'.hands_init = true ∧ g'.cards_init = true ∧ g'.interp_init = true) ↔
        State.treeBuilt ≤ g'.state) ∧
      (State.treeBuilt ≤ g'.state →
        g'.history = ({ state := .treeBuilt, history := [2, 5] } : PostFlopGame).history) ∧
      (g'.weights_valid = true ↔
        (State.treeBuilt ≤ g'.state ∧
         ({ state := .treeBuilt, history := [2, 5] } : PostFlopGame).is_normalized_weight_cached
           = true)) :=
  ⟨⟨by decide, by decide⟩,
   c7_lifecycle_reconstruction { state := .treeBuilt, history := [2, 5] } ⟨1, 2, 3, 4⟩
     (by decide) (by decide)⟩

/-- C1: for every instance in a reachable lifecycle state (expressed by the
replayable edit log, the storage-ownership invariants, the mirrored-offset
invariant, and non-null fresh arena addresses), decoding the encoding
succeeds, consumes the stream exactly, and yields an instance with identical
tree configuration, identical node count, identical per-node scalar fields
(including the children-range shape fields), and — for every node owning
storage — identical numeric content at each referenced storage range (value
equality under the new addresses, not address equality). -/
theorem c1_roundtrip_equivalence (g : PostFlopGame) (alloc : Alloc)
    (hreplay : replayOk g.tree_config g.added_lines g.removed_lines = true)
    (halloc : alloc.a1 ≠ 0 ∧ alloc.a2 ≠ 0 ∧ alloc.ip ≠ 0 ∧ alloc.ch ≠ 0)
    (hmem : State.memoryAllocated ≤ g.state →
      ∀ n ∈ g.node_arena, n.is_terminal = false → n.storage1 ≠ 0)
    (hlow : ¬ State.memoryAllocated ≤ g.state → ∀ n ∈ g.node_arena, n.storage1 = 0)
    (hmirror : State.memoryAllocated ≤ g.state →
      ∀ n ∈ g.node_arena, n.is_terminal = false → n.is_chance = false →
        n.storage2 - g.storage2.base = n.storage1 - g.storage1.base) :
    ∃ g', PostFlopGame.decodeG alloc (PostFlopGame.encodeG g) = .ok (g', []) ∧
      g'.tree_config = g.tree_config ∧
      g'.node_arena.length = g.node_arena.length ∧
      g'.storage1.data = g.storage1.data ∧
      g'.storage2.data = g.storage2.data ∧
      g'.storage_ip.data = g.storage_ip.data ∧
      g'.storage_chance.data = g.storage_chance.data ∧
      (∀ (i : Nat) (hi : i < g.node_arena.length) (hi' : i < g'.node_arena.length),
        (g'.node_arena.get ⟨i, hi'⟩).scalarFields =
          (g.node_arena.get ⟨i, hi⟩).scalarFields ∧
        ((g.node_arena.get ⟨i, hi⟩).is_terminal = false →
          (g.node_arena.get ⟨i, hi⟩).is_chance = true →
          (g.node_arena.get ⟨i, hi⟩).storage1 ≠ 0 →
          refContent g'.storage_chance (g'.node_arena.get ⟨i, hi'⟩).storage1
              (g'.node_arena.get ⟨i, hi'⟩).num_elements =
            refContent g.storage_chance (g.node_arena.get ⟨i, hi⟩).storage1
              (g.node_arena.get ⟨i, hi⟩).num_elements) ∧
        ((g.node_arena.get ⟨i, hi⟩).is_terminal = false →
          (g.node_arena.get ⟨i, hi⟩).is_chance = false →
          (g.node_arena.get ⟨i, hi⟩).storage1 ≠ 0 →
          refContent g'.storage1 (g'.node_arena.get ⟨i, hi'⟩).storage1
              (g'.node_arena.get ⟨i, hi'⟩).num_elements =
            refContent g.storage1 (g.node_arena.get ⟨i, hi⟩).storage1
              (g.node_arena.get ⟨i, hi⟩).num_elements ∧
          refContent g'.storage2 (g'.node_arena.get ⟨i, hi'⟩).storage2
              (g'.node_arena.get ⟨i, hi'⟩).num_elements =
            refContent g.storage2 (g.node_arena.get ⟨i, hi⟩).storage2
              (g.node_arena.get ⟨i, hi⟩).num_elements ∧
          refContent g'.storage_ip (g'.node_arena.get ⟨i, hi'⟩).storage3
              (g'.node_arena.get ⟨i, hi'⟩).num_elements_ip =
            refContent g.storage_ip (g.node_arena.get ⟨i, hi⟩).storage3
              (g.node_arena.get ⟨i, hi⟩).num_elements_ip)) := by
  have hguard : ∀ n ∈ g.node_arena, guardOk (rtBases g alloc) n := by
    intro n hn ht
    by_cases hms : State.memoryAllocated ≤ g.state
    · have hs := hmem hms n hn ht
      constructor
      · intro _
        simp only [rtBases, if_pos hms]
        cases hch : n.is_chance <;> simp [halloc.2.2.1, halloc.2.2.2]
      · intro _
        exact hs
    · have hs := hlow hms n hn
      simp only [rtBases, if_neg hms]
      constructor
      · intro hne
        exact absurd hs hne
      · intro hne
        exact absurd (by cases n.is_chance <;> rfl) hne
  obtain ⟨hst, hcfg, _, _, _, hs1, hs2, hsip, hsch, harena⟩ := rtGame_fields g alloc
  refine ⟨rtGame g alloc, decodeG_encodeG g alloc hreplay hguard, hcfg, ?_, ?_, ?_, ?_, ?_, ?_⟩
  · rw [harena, List.length_map]
  · rw [hs1]
  · rw [hs2]
  · rw [hsip]
  · rw [hsch]
  intro i hi hi'
  have hget : (rtGame g alloc).node_arena.get ⟨i, hi'⟩ =
      rtNode (encodeBases g) (rtBases g alloc) (g.node_arena.get ⟨i, hi⟩) := by
    have hi'' : i < ((rtGame g alloc).node_arena).length := hi'
    rw [List.get_eq_getElem, List.get_eq_getElem]
    simp only [harena] at hi'' ⊢
    exact List.getElem_map _
  set n := g.node_arena.get ⟨i, hi⟩ with hn
  have hnmem : n ∈ g.node_arena := List.get_mem _ _ _
  refine ⟨by rw [hget]; exact rtNode_scalarFields _ _ _, ?_, ?_⟩
  · intro ht hch hsnz
    have hms : State.memoryAllocated ≤ g.state := by
      by_contra hms
      exact hsnz (hlow hms n hnmem)
    have hbe : encodeBases g =
        { action1 := g.storage1.base, action2 := 0,
          ip := g.storage_ip.base, chance := g.storage_chance.base } := by
      simp [encodeBases, hms]
    have hbd : rtBases g alloc =
        { action1 := alloc.a1, action2 := alloc.a2, ip := alloc.ip, chance := alloc.ch } := by
      simp [rtBases, hms]
    rw [hget, rtNode_chance _ _ ht hch hsnz, hbe, hbd, hsch]
    exact refContent_rebase g.storage_chance.data g.storage_chance.base alloc.ch n.storage1
      n.num_elements
  · intro ht hch hsnz
    have hms : State.memoryAllocated ≤ g.state := by
      by_contra hms
      exact hsnz (hlow hms n hnmem)
    have hbe : encodeBases g =
        { action1 := g.storage1.base, action2 := 0,
          ip := g.storage_ip.base, chance := g.storage_chance.base } := by
      simp [encodeBases, hms]
    have hbd : rtBases g alloc =
        { action1 := alloc.a1, action2 := alloc.a2, ip := alloc.ip, chance := alloc.ch } := by
      simp [rtBases, hms]
    rw [hget, rtNode_action _ _ ht hch hsnz, hbe, hbd, hs1, hs2, hsip]
    refine ⟨refContent_rebase g.storage1.data g.storage1.base alloc.a1 n.storage1
      n.num_elements, ?_,
      refContent_rebase g.storage_ip.data g.storage_ip.base alloc.ip n.storage3
        n.num_elements_ip⟩
    have hm := hmirror hms n hnmem ht hch
    calc refContent ⟨alloc.a2, g.storage2.data⟩ (alloc.a2 + (n.storage1 - g.storage1.base))
          n.num_elements
        = refContent ⟨g.storage1.base, g.storage2.data⟩ n.storage1 n.num_elements :=
          refContent_rebase g.storage2.data g.storage1.base alloc.a2 n.storage1 n.num_elements
      _ = refContent g.storage2 n.storage2 n.num_elements := by
          unfold refContent
          have : n.storage1 - g.storage1.base = n.storage2 - g.storage2.base := hm.symm
          rw [this]

/-- Concrete allocated instance used to witness the round-trip claims:
one terminal, one chance and one action node, with the mirrored-offset
invariant holding (offset 2 into both primary arenas). -/
def wGame : PostFlopGame :=
  { state := .memoryAllocated
    storage1 := ⟨100, [1, 2, 3, 4]⟩
    storage2 := ⟨200, [5, 6, 7, 8]⟩
    storage_ip := ⟨300, [9, 10]⟩
    storage_chance := ⟨400, [11, 12]⟩
    node_arena :=
      [{ player := 8 },
       { player := 4, storage1 := 401, num_elements := 1 },
       { player := 1, storage1 := 102, storage2 := 202, storage3 := 301,
         num_elements := 2, num_elements_ip := 1 }] }

/-- Concrete fresh allocation addresses for the round-trip witnesses. -/
def wAlloc : Alloc := ⟨1000, 2000, 3000, 4000⟩

/-- Witness for `c1_roundtrip_equivalence` at `wGame`/`wAlloc`. -/
theorem c1_witness :
    (replayOk wGame.tree_config wGame.added_lines wGame.removed_lines = true ∧
     (wAlloc.a1 ≠ 0 ∧ wAlloc.a2 ≠ 0 ∧ wAlloc.ip ≠ 0 ∧ wAlloc.ch ≠ 0) ∧
     (State.memoryAllocated ≤ wGame.state →
       ∀ n ∈ wGame.node_arena, n.is_terminal = false → n.storage1 ≠ 0) ∧
     (¬ State.memoryAllocated ≤ wGame.state →
       ∀ n ∈ wGame.node_arena, n.storage1 = 0) ∧
     (State.memoryAllocated ≤ wGame.state →
       ∀ n ∈ wGame.node_arena, n.is_terminal = false → n.is_chance = false →
         n.storage2 - wGame.storage2.base = n.storage1 - wGame.storage1.base)) ∧
    ∃ g', PostFlopGame.decodeG wAlloc (PostFlopGame.encodeG wGame) = .ok (g', []) ∧
      g'.tree_config = wGame.tree_config ∧
      g'.node_arena.length = wGame.node_arena.length := by
  refine ⟨⟨by decide, by decide, by decide, by decide, by decide⟩, ?_⟩
  obtain ⟨g', h1, h2, h3, -⟩ :=
    c1_roundtrip_equivalence wGame wAlloc (by decide) (by decide) (by decide)
      (by decide) (by decide)
  exact ⟨g', h1, h2, h3⟩

/-- C8: node decode propagates the underlying stream error of any failing
scalar-field decode unchanged (returning no node at all), and every
successfully decoded node carries exactly the scalar fields parsed from the
stream — a node is never partially populated. -/
theorem c8_node_scalar_error_propagation :
    (∀ (b : Bases) (ts : List Token) (e : DecodeError),
      dScalars ts = .err e → PostFlopNode.decodeN b ts = .err e) ∧
    (∀ (b : Bases) (ts : List Token) (p : PostFlopNode × List Token),
      PostFlopNode.decodeN b ts = .ok p →
      ∃ m rest, dScalars ts = .ok (m, rest) ∧ p.1.scalarFields = m.scalarFields) := by
  constructor
  · intro b ts e h
    unfold PostFlopNode.decodeN
    rw [h]
    rfl
  · intro b ts p h
    unfold PostFlopNode.decodeN at h
    obtain ⟨⟨m, rest⟩, hm, hk⟩ := DR.bind_eq_ok h
    refine ⟨m, rest, hm, ?_⟩
    simp only at hk
    split at hk
    · simp only [DR.pure_def] at hk
      cases hk
      rfl
    · split at hk
      · split at hk
        · obtain ⟨⟨off, ts2⟩, -, hk⟩ := DR.bind_eq_ok hk
          simp only [DR.pure_def] at hk
          cases hk
          rfl
        · simp only [DR.pure_def] at hk
          cases hk
          rfl
      · split at hk
        · obtain ⟨⟨off, ts2⟩, -, hk⟩ := DR.bind_eq_ok hk
          obtain ⟨⟨offIp, ts3⟩, -, hk⟩ := DR.bind_eq_ok hk
          simp only [DR.pure_def] at hk
          cases hk
          rfl
        · simp only [DR.pure_def] at hk
          cases hk
          rfl

/-- Witness for `c8_node_scalar_error_propagation` on the empty (truncated)
stream. -/
theorem c8_witness :
    dScalars [] = .err (.malformed "uint") ∧
    PostFlopNode.decodeN ⟨0, 0, 0, 0⟩ [] = .err (.malformed "uint") :=
  ⟨by decide,
   c8_node_scalar_error_propagation.1 ⟨0, 0, 0, 0⟩ [] (.malformed "uint") (by decide)⟩

theorem postAssemble_tree_fields (g0 : PostFlopGame) (hist : List Nat) (f : Bool)
    (arena : List PostFlopNode) :
    (postAssemble g0 hist f arena).tree_config = g0.tree_config ∧
    (postAssemble g0 hist f arena).added_lines = g0.added_lines ∧
    (postAssemble g0 hist f arena).removed_lines = g0.removed_lines ∧
    (postAssemble g0 hist f arena).action_root = g0.action_root := by
  refine ⟨?_, ?_, ?_, ?_⟩ <;>
    (unfold postAssemble PostFlopGame.init_hands PostFlopGame.init_card_fields
      PostFlopGame.init_interpreter PostFlopGame.apply_history
      PostFlopGame.cache_normalized_weights
     dsimp only
     split <;> first | (split <;> rfl) | rfl)

/-- Inversion of the decode preamble: any successfully decoded partial
instance has its action tree derived from the decoded configuration and edit
log, never from further stream content. -/
theorem dPre_ok_tree {alloc : Alloc} {ts : List Token} {g0 : PostFlopGame}
    {hist : List Nat} {f : Bool} {ts1 : List Token}
    (h : dPre alloc ts = .ok ((g0, hist, f), ts1)) :
    replayOk g0.tree_config g0.added_lines g0.removed_lines = true ∧
    g0.action_root = replayRoot g0.tree_config g0.added_lines g0.removed_lines := by
  unfold dPre at h
  obtain ⟨⟨v, ts2⟩, hv, h⟩ := DR.bind_eq_ok h
  simp only at h
  split at h
  · exact absurd h (by simp)
  · obtain ⟨⟨cfg, ts3⟩, hcfg, h⟩ := DR.bind_eq_ok h
    obtain ⟨⟨add, ts4⟩, hadd, h⟩ := DR.bind_eq_ok h
    obtain ⟨⟨rem, ts5⟩, hrem, h⟩ := DR.bind_eq_ok h
    obtain ⟨t, htree, h⟩ := DR.bind_eq_ok h
    simp only [ActionTree.eject] at h
    obtain ⟨⟨x1, ts6⟩, -, h⟩ := DR.bind_eq_ok h
    obtain ⟨⟨x2, ts7⟩, -, h⟩ := DR.bind_eq_ok h
    obtain ⟨⟨x3, ts8⟩, -, h⟩ := DR.bind_eq_ok h
    obtain ⟨⟨x4, ts9⟩, -, h⟩ := DR.bind_eq_ok h
    obtain ⟨⟨x5, ts10⟩, -, h⟩ := DR.bind_eq_ok h
    obtain ⟨⟨x6, ts11⟩, -, h⟩ := DR.bind_eq_ok h
    obtain ⟨⟨x7, ts12⟩, -, h⟩ := DR.bind_eq_ok h
    obtain ⟨⟨x8, ts13⟩, -, h⟩ := DR.bind_eq_ok h
    obtain ⟨⟨x9, ts14⟩, -, h⟩ := DR.bind_eq_ok h
    obtain ⟨⟨x10, ts15⟩, -, h⟩ := DR.bind_eq_ok h
    obtain ⟨⟨x11, ts16⟩, -, h⟩ := DR.bind_eq_ok h
    obtain ⟨⟨x12, ts17⟩, -, h⟩ := DR.bind_eq_ok h
    obtain ⟨⟨x13, ts18⟩, -, h⟩ := DR.bind_eq_ok h
    obtain ⟨⟨x14, ts19⟩, -, h⟩ := DR.bind_eq_ok h
    simp only [DR.pure_def] at h
    cases h
    have hc := replayTree_config htree
    constructor
    · simp only [hc]
      simp [replayOk, htree]
    · simp only [hc, replayRoot_eq htree]

/-- C6: whenever decode succeeds, the action tree of the produced instance is
exactly the deterministic replay of the decoded tree configuration and edit
log through the external builder — the tree shape is never read from the
remaining stream. -/
theorem c6_tree_from_config_and_edits (alloc : Alloc) (ts : List Token)
    (g' : PostFlopGame) (rest : List Token)
    (h : PostFlopGame.decodeG alloc ts = .ok (g', rest)) :
    replayOk g'.tree_config g'.added_lines g'.removed_lines = true ∧
    g'.action_root = replayRoot g'.tree_config g'.added_lines g'.removed_lines := by
  unfold PostFlopGame.decodeG at h
  obtain ⟨⟨⟨g0, hist, f⟩, ts1⟩, hpre, h⟩ := DR.bind_eq_ok h
  simp only at h
  obtain ⟨⟨count, ts2⟩, -, h⟩ := DR.bind_eq_ok h
  obtain ⟨⟨arena, ts3⟩, -, h⟩ := DR.bind_eq_ok h
  simp only [DR.pure_def] at h
  cases h
  obtain ⟨hp1, hp2, hp3, hp4⟩ := postAssemble_tree_fields g0 hist f arena
  rw [hp1, hp2, hp3, hp4]
  exact dPre_ok_tree hpre

/-- The result of decoding the preamble of the default (uninitialized)
instance with fresh bases 1/2/3/4: all fields default, arenas at the fresh
addresses. -/
def wIdle : PostFlopGame :=
  { storage1 := ⟨1, []⟩, storage2 := ⟨2, []⟩
    storage_ip := ⟨3, []⟩, storage_chance := ⟨4, []⟩ }

/-- Witness for `c6_tree_from_config_and_edits` on the round trip of the
default instance. -/
theorem c6_witness :
    PostFlopGame.decodeG ⟨1, 2, 3, 4⟩ (PostFlopGame.encodeG {}) = .ok (wIdle, []) ∧
    replayOk wIdle.tree_config wIdle.added_lines wIdle.removed_lines = true ∧
    wIdle.action_root = replayRoot wIdle.tree_config wIdle.added_lines wIdle.removed_lines :=
  ⟨by decide,
   c6_tree_from_config_and_edits ⟨1, 2, 3, 4⟩ (PostFlopGame.encodeG {}) wIdle []
     (by decide)⟩

/-- C9: the rebase context is a per-session value computed exactly once per
aggregate call — on encode it is `encodeBases` of the instance and the whole
node section is emitted against that single value; on decode, once the
preamble has materialized the arenas, the remaining stream is decoded
entirely against the single context `decodeBases` of the freshly built
partial instance.  Node codec results are therefore functions only of their
explicit inputs and that per-session context. -/
theorem c9_rebase_context_explicit :
    (∀ g : PostFlopGame,
      PostFlopGame.encodeG g =
        encodePre g ++ Token.tlen g.node_arena.length ::
          g.node_arena.flatMap (PostFlopNode.encodeN (encodeBases g))) ∧
    (∀ (alloc : Alloc) (ts : List Token) (g0 : PostFlopGame) (hist : List Nat)
        (f : Bool) (ts' : List Token),
      dPre alloc ts = .ok ((g0, hist, f), ts') →
      PostFlopGame.decodeG alloc ts =
        (do
          let (count, ts2) ← dLen ts'
          let (arena, ts3) ← decodeNodes (decodeBases g0) count ts2
          pure (postAssemble g0 hist f arena, ts3))) := by
  constructor
  · intro g
    rfl
  · intro alloc ts g0 hist f ts' h
    unfold PostFlopGame.decodeG
    rw [h]
    rfl

/-- Witness for `c9_rebase_context_explicit` on the default instance's
stream. -/
theorem c9_witness :
    dPre ⟨1, 2, 3, 4⟩ (PostFlopGame.encodeG {}) = .ok ((wIdle, [], false), [Token.tlen 0]) ∧
    PostFlopGame.decodeG ⟨1, 2, 3, 4⟩ (PostFlopGame.encodeG {}) =
      (do
        let (count, ts2) ← dLen [Token.tlen 0]
        let (arena, ts3) ← decodeNodes (decodeBases wIdle) count ts2
        pure (postAssemble wIdle [] false arena, ts3)) :=
  ⟨by decide,
   c9_rebase_context_explicit.2 ⟨1, 2, 3, 4⟩ (PostFlopGame.encodeG {}) wIdle [] false
     [Token.tlen 0] (by decide)⟩

/-- Counterexample for C5: a well-formed stream whose removed-line edit
cannot be replayed (the line was never added) makes decode abort by a panic
(`Result::unwrap()` on the builder's `Err`), not by a `DecodeError` value
returned to the caller. -/
theorem c5_counterexample :
    PostFlopGame.decodeG ⟨1, 2, 3, 4⟩
        [Token.tstr VERSION_STR, Token.tcfg ⟨0⟩, Token.tlines [],
         Token.tlines [[⟨0⟩]]] =
      .panicked ("called unwrap on an Err value: remove_line failed") := by
  decide

theorem decodeG_after_preamble {alloc : Alloc} {ts : List Token}
    {g0 : PostFlopGame} {hist : List Nat} {f : Bool} {ts' : List Token}
    (h : dPre alloc ts = .ok ((g0, hist, f), ts')) :
    PostFlopGame.decodeG alloc ts =
      (do
        let (count, ts2) ← dLen ts'
        let (arena, ts3) ← decodeNodes (decodeBases g0) count ts2
        pure (postAssemble g0 hist f arena, ts3)) := by
  unfold PostFlopGame.decodeG
  rw [h]
  rfl

/-- C5 (amended): a truncated or invalid primitive — anywhere in the stream,
preamble or node-arena section — and a node-count prefix exceeding the
remaining stream propagate the underlying decode error unchanged to the
caller, and no instance is produced; an edit log that cannot be consistently
replayed aborts decode by a panic carrying the failed builder call's message —
a process abort, not an error value returned to the caller; in every case no
partial or best-effort instance is produced. -/
theorem c5_malformed_stream (alloc : Alloc) :
    (∀ (ts : List Token) (e : DecodeError),
      dPre alloc ts = .err e → PostFlopGame.decodeG alloc ts = .err e) ∧
    (∀ (ts : List Token) (m : String),
      dPre alloc ts = .panicked m → PostFlopGame.decodeG alloc ts = .panicked m) ∧
    (∀ (cfg : TreeConfig) (add rem : List (List Action)) (rest : List Token)
        (m : String),
      replayTree cfg add rem = .panicked m →
      PostFlopGame.decodeG alloc
        (Token.tstr VERSION_STR :: Token.tcfg cfg :: Token.tlines add ::
          Token.tlines rem :: rest) = .panicked m) ∧
    (∀ (ts : List Token) (g0 : PostFlopGame) (hist : List Nat) (f : Bool)
        (ts' : List Token) (e : DecodeError),
      dPre alloc ts = .ok ((g0, hist, f), ts') → dLen ts' = .err e →
      PostFlopGame.decodeG alloc ts = .err e) ∧
    (∀ (ts : List Token) (g0 : PostFlopGame) (hist : List Nat) (f : Bool)
        (ts' : List Token) (count : Nat) (ts2 : List Token) (e : DecodeError),
      dPre alloc ts = .ok ((g0, hist, f), ts') →
      dLen ts' = .ok (count, ts2) →
      decodeNodes (decodeBases g0) count ts2 = .err e →
      PostFlopGame.decodeG alloc ts = .err e) ∧
    (∀ (b : Bases) (count : Nat),
      decodeNodes b (count + 1) [] = .err (.malformed "uint")) := by
  refine ⟨?_, ?_, ?_, ?_, ?_, ?_⟩
  · intro ts e h
    unfold PostFlopGame.decodeG
    rw [h]
    rfl
  · intro ts m h
    unfold PostFlopGame.decodeG
    rw [h]
    rfl
  · intro cfg add rem rest m h
    unfold PostFlopGame.decodeG dPre
    simp [h]
  · intro ts g0 hist f ts' e hpre hlen
    rw [decodeG_after_preamble hpre]
    rw [hlen]
    rfl
  · intro ts g0 hist f ts' count ts2 e hpre hlen hnodes
    rw [decodeG_after_preamble hpre]
    rw [hlen]
    simp only [DR.ok_bind]
    rw [hnodes]
    rfl
  · intro b count
    rfl

/-- Witness for `c5_malformed_stream`: the empty (truncated) stream, and a
stream with a well-formed preamble whose node-count prefix (1) exceeds the
empty remaining node section — the count-mismatch error propagates. -/
theorem c5_witness :
    (dPre ⟨1, 2, 3, 4⟩ [] = .err (.malformed "String") ∧
     PostFlopGame.decodeG ⟨1, 2, 3, 4⟩ [] = .err (.malformed "String")) ∧
    (dPre ⟨1, 2, 3, 4⟩ (encodePre {} ++ [Token.tlen 1]) =
       .ok ((wIdle, [], false), [Token.tlen 1]) ∧
     dLen [Token.tlen 1] = .ok (1, []) ∧
     decodeNodes (decodeBases wIdle) 1 [] = .err (.malformed "uint") ∧
     PostFlopGame.decodeG ⟨1, 2, 3, 4⟩ (encodePre {} ++ [Token.tlen 1]) =
       .err (.malformed "uint")) :=
  ⟨⟨by decide, (c5_malformed_stream ⟨1, 2, 3, 4⟩).1 [] (.malformed "String") (by decide)⟩,
   ⟨by decide, by decide, by decide,
    (c5_malformed_stream ⟨1, 2, 3, 4⟩).2.2.2.2.1 (encodePre {} ++ [Token.tlen 1])
      wIdle [] false [Token.tlen 1] 1 [] (.malformed "uint")
      (by decide) (by decide) (by decide)⟩⟩

end PostflopSolver
